import Mathlib

/-!
Verification of the core of `swole` (src/swole/main.py): the data model
(`WorkingSet`, `Session`, `MicroCycle`, `MesoCycle`, `Program`), the weight
arithmetic (`mround`, `WorkingSet.calculate_weight`, `WorkingSet.stringify`,
`MesoCycle.effective_tm`) and the generator functions
(`generate_workingsets`, `generate_sessions`, `generate_micros`,
`generate_mesos`, `load_program`).

Modelling conventions:
- Python numbers (`float`/`int` under `Numeric`) are modelled as exact
  rationals `ℚ`; Python `int` fields (`reps`, repeat counts) as `ℤ`.
- Python `Optional` arguments and possibly-absent mapping keys are `Option`.
- Python truthiness tests on numbers (`if tm`, `if not rounding`) are
  modelled as comparison with `0` (`None` and numeric `0` are both falsy).
- The raw YAML mappings consumed by the generators are modelled as records
  with one `Option` field per documented key, plus an `extra` association
  list standing for any undocumented keys (the generators read only the
  documented keys, so the values of undocumented keys are kept opaque as
  strings).
- A missing required key raises Python `KeyError(field)`; this is modelled
  by the `Except` monad with error type `GenError.keyError field`.
  Generators are lazy in Python but every caller drains them into a list,
  so the sequential `Except` semantics is faithful.
-/

namespace Swole

/-- Error raised on a missing required mapping key: Python `KeyError`,
which carries exactly the offending key and nothing else. -/
inductive GenError where
  | keyError (field : String) : GenError
deriving DecidableEq

/-- Python `mround(value, rounding)`: floor `value` to a multiple of
`rounding`; `if not rounding: rounding = 5.0`, i.e. an absent or zero
rounding unit is replaced by 5. `//` on floats is floor division. -/
def mround (value : ℚ) (rounding : Option ℚ) : ℚ :=
  let r : ℚ := match rounding with
    | none => 5
    | some u => if u = 0 then 5 else u
  (⌊value / r⌋ : ℚ) * r

/-- Frozen dataclass `WorkingSet`: `percent`, `reps`, optional `amrap`
(default `False`). -/
structure WorkingSet where
  percent : ℚ
  reps : ℤ
  amrap : Bool := false
deriving DecidableEq

/-- Method `WorkingSet.calculate_weight(tm, rounding)`:
`mround(float(tm) * self.percent, rounding) if tm else self.percent`.
The guard `if tm` is Python truthiness: both `None` and `0` take the
`else` branch. -/
def WorkingSet.calculate_weight (self : WorkingSet)
    (tm : Option ℚ := none) (rounding : Option ℚ := none) : ℚ :=
  match tm with
  | none => self.percent
  | some t => if t = 0 then self.percent else mround (t * self.percent) rounding

/-- Fixed-point rendering with one decimal digit, modelling the Python
format specifier `:.1f` on an exact rational value: round to the nearest
tenth and print `whole.tenth`. (All values formatted by the claims are
non-negative exact tenths, where this agrees with CPython.) -/
def formatFixed1 (q : ℚ) : String :=
  let n : ℤ := round (q * 10)
  toString (n / 10) ++ "." ++ toString (n % 10)

/-- Method `WorkingSet.stringify(tm, rounding)`: `f'{weight:.1f} x {reps}'` with
`reps` suffixed by `+` when `amrap` is true. -/
def WorkingSet.stringify (self : WorkingSet)
    (tm : Option ℚ := none) (rounding : Option ℚ := none) : String :=
  let weight := self.calculate_weight tm rounding
  let reps := if self.amrap then toString self.reps ++ "+" else toString self.reps
  formatFixed1 weight ++ " x " ++ reps

/-- Frozen dataclass `Session`. -/
structure Session where
  name : String
  sets : List WorkingSet
deriving DecidableEq

/-- Frozen dataclass `MicroCycle`. -/
structure MicroCycle where
  name : String
  sessions : List Session
deriving DecidableEq

/-- Frozen dataclass `MesoCycle` with optional `tm_inc` (default 0). -/
structure MesoCycle where
  name : String
  micros : List MicroCycle
  tm_inc : ℚ := 0
deriving DecidableEq

/-- Method `MesoCycle.effective_tm(tm)`:
`float(tm) + float(self.tm_inc) if tm else None`.
The guard `if tm` is Python truthiness: both `None` and `0` yield `None`. -/
def MesoCycle.effective_tm (self : MesoCycle) (tm : Option ℚ := none) : Option ℚ :=
  match tm with
  | none => none
  | some t => if t = 0 then none else some (t + self.tm_inc)

/-- Frozen dataclass `Program` (presentation methods are excluded: they
only print). -/
structure Program where
  name : String
  mesos : List MesoCycle
deriving DecidableEq

/-! ## Raw description shapes

Each raw mapping is a record of its documented keys (each `Option`, since
the Python dict may lack the key) plus `extra`, the undocumented keys. -/

/-- Raw set-entry mapping: documented keys `percent`, `reps`, `amrap`,
`sets`; `extra` are any other keys. -/
structure RawSet where
  percent : Option ℚ := none
  reps : Option ℤ := none
  amrap : Option Bool := none
  sets : Option ℤ := none
  extra : List (String × String) := []
deriving DecidableEq

/-- Raw session mapping: documented keys `name`, `sets`. -/
structure RawSession where
  name : Option String := none
  sets : Option (List RawSet) := none
  extra : List (String × String) := []
deriving DecidableEq

/-- Raw microcycle mapping: documented keys `name`, `sessions`. -/
structure RawMicro where
  name : Option String := none
  sessions : Option (List RawSession) := none
  extra : List (String × String) := []
deriving DecidableEq

/-- Raw mesocycle mapping: documented keys `name`, `micros`, `tm_inc`. -/
structure RawMeso where
  name : Option String := none
  micros : Option (List RawMicro) := none
  tm_inc : Option ℚ := none
  extra : List (String × String) := []
deriving DecidableEq

/-- Raw top-level program mapping: documented keys `name`, `mesos`. -/
structure RawProgram where
  name : Option String := none
  mesos : Option (List RawMeso) := none
  extra : List (String × String) := []
deriving DecidableEq

/-! ## Generators

Each generator walks its input in order; dict accesses `d['k']` become a
`match` that fails with `keyError "k"` when the key is absent, in the
evaluation order of the Python code (`d.get('k', default)` never fails).
`for _ in range(n)` yields `max n 0` copies, i.e. `Int.toNat n`. -/

/-- Generator `generate_workingsets(workingsets)`: for each entry build
`WorkingSet(amrap=ws.get('amrap', False), percent=ws['percent'],
reps=ws['reps'])` and yield it `ws.get('sets', 1)` times. -/
def generate_workingsets : List RawSet → Except GenError (List WorkingSet)
  | [] => .ok []
  | ws :: rest =>
    match ws.percent with
    | none => .error (.keyError "percent")
    | some percent =>
      match ws.reps with
      | none => .error (.keyError "reps")
      | some reps =>
        match generate_workingsets rest with
        | .error e => .error e
        | .ok tail =>
          .ok (List.replicate (ws.sets.getD 1).toNat
                ⟨percent, reps, ws.amrap.getD false⟩ ++ tail)

/-- Generator `generate_sessions(sessions)`: `session['sets']` is read (and its
working sets generated) before `session['name']`. -/
def generate_sessions : List RawSession → Except GenError (List Session)
  | [] => .ok []
  | session :: rest =>
    match session.sets with
    | none => .error (.keyError "sets")
    | some setsRaw =>
      match generate_workingsets setsRaw with
      | .error e => .error e
      | .ok workingsets =>
        match session.name with
        | none => .error (.keyError "name")
        | some name =>
          match generate_sessions rest with
          | .error e => .error e
          | .ok tail => .ok (⟨name, workingsets⟩ :: tail)

/-- Generator `generate_micros(micros)`: `micro['sessions']` is read before
`micro['name']`. -/
def generate_micros : List RawMicro → Except GenError (List MicroCycle)
  | [] => .ok []
  | micro :: rest =>
    match micro.sessions with
    | none => .error (.keyError "sessions")
    | some sessionsRaw =>
      match generate_sessions sessionsRaw with
      | .error e => .error e
      | .ok sessions =>
        match micro.name with
        | none => .error (.keyError "name")
        | some name =>
          match generate_micros rest with
          | .error e => .error e
          | .ok tail => .ok (⟨name, sessions⟩ :: tail)

/-- Generator `generate_mesos(mesos)`: `meso['micros']` is read first; the
`options` comprehension keeps only the `tm_inc` key (so `tm_inc` defaults
to 0 when absent and every other extra key is dropped); `meso['name']` is
read last. -/
def generate_mesos : List RawMeso → Except GenError (List MesoCycle)
  | [] => .ok []
  | meso :: rest =>
    match meso.micros with
    | none => .error (.keyError "micros")
    | some microsRaw =>
      match generate_micros microsRaw with
      | .error e => .error e
      | .ok micros =>
        match meso.name with
        | none => .error (.keyError "name")
        | some name =>
          match generate_mesos rest with
          | .error e => .error e
          | .ok tail => .ok (⟨name, micros, meso.tm_inc.getD 0⟩ :: tail)

/-- Function `load_program(handle)` after the YAML parse and shape `check`:
`program['mesos']` is drained through `generate_mesos`, then
`Program(program['name'], mesos)` is built. -/
def load_program (program : RawProgram) : Except GenError Program :=
  match program.mesos with
  | none => .error (.keyError "mesos")
  | some mesosRaw =>
    match generate_mesos mesosRaw with
    | .error e => .error e
    | .ok mesos =>
      match program.name with
      | none => .error (.keyError "name")
      | some name => .ok ⟨name, mesos⟩

/-- Decidable equality of `Except` results, for evaluating the generators
on concrete inputs. -/
instance {ε α : Type} [DecidableEq ε] [DecidableEq α] : DecidableEq (Except ε α)
  | .ok a, .ok b => if h : a = b then .isTrue (by rw [h]) else .isFalse (by simp [h])
  | .ok _, .error _ => .isFalse (by simp)
  | .error _, .ok _ => .isFalse (by simp)
  | .error a, .error b => if h : a = b then .isTrue (by rw [h]) else .isFalse (by simp [h])

/-! ## Claims about the weight arithmetic -/

/-- Claim C1, counterexample to the original statement: the claim asserts
that for every supplied training max, including 0, `calculate_weight`
returns `floor(tm * percent / unit) * unit`; on the code, a supplied
training max of 0 is falsy and the method returns `percent` instead (here
`1/2`, while the claimed formula gives `0`). -/
theorem C1_counterexample :
    (WorkingSet.mk (1/2) 10 false).calculate_weight (some 0) (some 5) = 1/2 ∧
    (⌊(0 : ℚ) * (1/2) / 5⌋ : ℚ) * 5 = 0 ∧
    ((1 : ℚ)/2 ≠ 0) := by
  refine ⟨?_, by norm_num, by norm_num⟩
  simp [WorkingSet.calculate_weight]

/-- Claim C1 (amended): when no training max is supplied, or the supplied
training max is 0 (falsy), `calculate_weight` returns `percent` unchanged;
for every nonzero supplied training max it returns
`floor(tm * percent / unit) * unit`, where the unit is 5 whenever the
rounding argument is absent or 0 (falsy). -/
theorem C1_calculate_weight_amended (ws : WorkingSet) :
    (∀ u : Option ℚ,
      ws.calculate_weight none u = ws.percent ∧
      ws.calculate_weight (some 0) u = ws.percent) ∧
    (∀ t : ℚ, t ≠ 0 →
      ws.calculate_weight (some t) none = (⌊t * ws.percent / 5⌋ : ℚ) * 5 ∧
      ws.calculate_weight (some t) (some 0) = (⌊t * ws.percent / 5⌋ : ℚ) * 5 ∧
      ∀ u : ℚ, u ≠ 0 →
        ws.calculate_weight (some t) (some u) = (⌊t * ws.percent / u⌋ : ℚ) * u) := by
  refine ⟨fun u => ⟨rfl, by simp [WorkingSet.calculate_weight]⟩, fun t ht => ?_⟩
  refine ⟨?_, ?_, fun u hu => ?_⟩
  · simp [WorkingSet.calculate_weight, mround, ht]
  · simp [WorkingSet.calculate_weight, mround, ht]
  · simp [WorkingSet.calculate_weight, mround, ht, hu]

/-- Witness for C1 at concrete inputs: training max 200 with unit 5, the
default unit, the falsy unit 0, and an explicit unit 10. -/
theorem C1_witness :
    (WorkingSet.mk (1/2) 10 false).calculate_weight (some 200) (some 5) =
      (⌊(200 : ℚ) * (1/2) / 5⌋ : ℚ) * 5 ∧
    (WorkingSet.mk (1/2) 10 false).calculate_weight (some 200) none =
      (⌊(200 : ℚ) * (1/2) / 5⌋ : ℚ) * 5 ∧
    (WorkingSet.mk (1/2) 10 false).calculate_weight (some 200) (some 0) =
      (⌊(200 : ℚ) * (1/2) / 5⌋ : ℚ) * 5 :=
  ⟨((C1_calculate_weight_amended ⟨1/2, 10, false⟩).2 200 (by norm_num)).2.2 5 (by norm_num),
   ((C1_calculate_weight_amended ⟨1/2, 10, false⟩).2 200 (by norm_num)).1,
   ((C1_calculate_weight_amended ⟨1/2, 10, false⟩).2 200 (by norm_num)).2.1⟩

/-- Claim C2, counterexample to the original statement: the claim asserts
`effective_tm(0) = 0 + tm_inc`; on the code, a supplied training max of 0
is falsy and `effective_tm` returns `None`. -/
theorem C2_counterexample :
    (MesoCycle.mk "m1" [] 5).effective_tm (some 0) = none ∧
    (none : Option ℚ) ≠ some ((0 : ℚ) + 5) := by
  constructor
  · simp [MesoCycle.effective_tm]
  · simp

/-- Claim C2 (amended): `effective_tm` returns `None` when no base
training max is supplied and also when the supplied base training max is 0
(falsy); for every nonzero supplied base training max `t` it returns
`t + tm_inc`. -/
theorem C2_effective_tm_amended (m : MesoCycle) :
    m.effective_tm none = none ∧
    m.effective_tm (some 0) = none ∧
    (∀ t : ℚ, t ≠ 0 → m.effective_tm (some t) = some (t + m.tm_inc)) := by
  refine ⟨rfl, by simp [MesoCycle.effective_tm], fun t ht => ?_⟩
  simp [MesoCycle.effective_tm, ht]

/-- Witness for C2: `effective_tm(100)` with `tm_inc = 5` is `105`. -/
theorem C2_witness :
    (MesoCycle.mk "m1" [] 5).effective_tm (some 100) = some ((100 : ℚ) + 5) :=
  (C2_effective_tm_amended ⟨"m1", [], 5⟩).2.2 100 (by norm_num)

/-- Claim C8: a training max supplied as exactly 0 is treated as if no
training max were given — `calculate_weight (some 0)` returns `percent`
for every rounding unit, and `effective_tm (some 0)` returns `None` for
every mesocycle (hence every `tm_inc`). -/
theorem C8_zero_tm_treated_as_absent :
    (∀ (ws : WorkingSet) (u : Option ℚ),
      ws.calculate_weight (some 0) u = ws.percent) ∧
    (∀ m : MesoCycle, m.effective_tm (some 0) = none) := by
  constructor
  · intro ws u
    simp [WorkingSet.calculate_weight]
  · intro m
    simp [MesoCycle.effective_tm]

/-- Claim C5: for positive `percent`, `trainingMax` and `unit`,
`calculate_weight(trainingMax, unit)` is an exact integer multiple of
`unit`, is at most `trainingMax * percent`, and exceeds
`trainingMax * percent - unit` (exact rational arithmetic). -/
theorem C5_weight_bounds (ws : WorkingSet) (t u : ℚ)
    (hp : 0 < ws.percent) (ht : 0 < t) (hu : 0 < u) :
    (∃ k : ℤ, ws.calculate_weight (some t) (some u) = (k : ℚ) * u) ∧
    ws.calculate_weight (some t) (some u) ≤ t * ws.percent ∧
    t * ws.percent - u < ws.calculate_weight (some t) (some u) := by
  have hcw : ws.calculate_weight (some t) (some u) = (⌊t * ws.percent / u⌋ : ℚ) * u := by
    simp [WorkingSet.calculate_weight, mround, ht.ne', hu.ne']
  refine ⟨⟨⌊t * ws.percent / u⌋, hcw⟩, ?_, ?_⟩
  · rw [hcw]
    calc (⌊t * ws.percent / u⌋ : ℚ) * u ≤ (t * ws.percent / u) * u :=
          mul_le_mul_of_nonneg_right (Int.floor_le _) hu.le
      _ = t * ws.percent := div_mul_cancel₀ _ hu.ne'
  · rw [hcw]
    have h1 : t * ws.percent / u - 1 < (⌊t * ws.percent / u⌋ : ℚ) := Int.sub_one_lt_floor _
    calc t * ws.percent - u = (t * ws.percent / u - 1) * u := by field_simp
      _ < (⌊t * ws.percent / u⌋ : ℚ) * u := mul_lt_mul_of_pos_right h1 hu

/-- Witness for C5: percent 1/2, training max 215, unit 10. -/
theorem C5_witness :
    (∃ k : ℤ,
      (WorkingSet.mk (1/2) 10 true).calculate_weight (some 215) (some 10) = (k : ℚ) * 10) ∧
    (WorkingSet.mk (1/2) 10 true).calculate_weight (some 215) (some 10) ≤ 215 * (1/2) ∧
    215 * ((1 : ℚ)/2) - 10 < (WorkingSet.mk (1/2) 10 true).calculate_weight (some 215) (some 10) :=
  C5_weight_bounds ⟨1/2, 10, true⟩ 215 10 (by norm_num) (by norm_num) (by norm_num)

/-- Claim C7: `stringify` renders the computed weight with one decimal
place, then `" x "`, then the rep count, with `"+"` appended to the reps
exactly when `amrap` is true; concretely
`WorkingSet(amrap=True, percent=0.5, reps=10).stringify(215, 10.0)` is
`"100.0 x 10+"`. -/
theorem C7_stringify :
    (WorkingSet.mk (1/2) 10 true).stringify (some 215) (some 10) = "100.0 x 10+" ∧
    ∀ (ws : WorkingSet) (tm u : Option ℚ),
      ws.stringify tm u =
        formatFixed1 (ws.calculate_weight tm u) ++ " x " ++ toString ws.reps ++
          (if ws.amrap then "+" else "") := by
  constructor
  · have hw : (WorkingSet.mk (1/2) 10 true).calculate_weight (some 215) (some 10) = 100 := by
      simp only [WorkingSet.calculate_weight, mround]
      norm_num
    have hr : round ((100 : ℚ) * 10) = 1000 := by norm_num [round_eq]
    simp only [WorkingSet.stringify, hw, formatFixed1, hr]
    decide
  · intro ws tm u
    cases h : ws.amrap <;>
      simp [WorkingSet.stringify, h, formatFixed1, String.append_assoc]

/-- Claim C3: a raw set entry with required `percent` and `reps` expands
to exactly `sets` consecutive value-equal `WorkingSet` entries prepended
in input order; `sets = 0` emits nothing, an absent `sets` key emits
exactly one entry, and an absent `amrap` key defaults to `false`. -/
theorem C3_generate_workingsets_expansion
    (p : ℚ) (r : ℤ) (a : Option Bool) (extra : List (String × String))
    (rest : List RawSet) (tail : List WorkingSet)
    (hrest : generate_workingsets rest = .ok tail) :
    (∀ n : ℤ, 0 ≤ n →
      generate_workingsets (⟨some p, some r, a, some n, extra⟩ :: rest) =
        .ok (List.replicate n.toNat ⟨p, r, a.getD false⟩ ++ tail)) ∧
    generate_workingsets (⟨some p, some r, a, some 0, extra⟩ :: rest) = .ok tail ∧
    generate_workingsets (⟨some p, some r, a, none, extra⟩ :: rest) =
      .ok ([⟨p, r, a.getD false⟩] ++ tail) ∧
    generate_workingsets (⟨some p, some r, none, some 1, extra⟩ :: rest) =
      .ok ([⟨p, r, false⟩] ++ tail) := by
  refine ⟨fun n hn => ?_, ?_, ?_, ?_⟩ <;>
    simp [generate_workingsets, hrest, List.replicate]

/-- Witness for C3: a single entry with `sets = 3` expands to three
identical working sets. -/
theorem C3_witness :
    generate_workingsets [⟨some 1, some 5, none, some 3, []⟩] =
      .ok (List.replicate (3 : ℤ).toNat ⟨1, 5, false⟩ ++ []) :=
  (C3_generate_workingsets_expansion 1 5 none [] [] [] rfl).1 3 (by norm_num)

/-- Claim C9: a raw set entry whose `sets` value is negative produces no
error and emits zero entries, exactly as a repeat count of 0 does
(`range(n)` is empty for negative `n`), and generation completes with the
remaining entries. -/
theorem C9_negative_sets
    (p : ℚ) (r : ℤ) (a : Option Bool) (extra : List (String × String))
    (rest : List RawSet) (tail : List WorkingSet) (n : ℤ)
    (hn : n < 0) (hrest : generate_workingsets rest = .ok tail) :
    generate_workingsets (⟨some p, some r, a, some n, extra⟩ :: rest) = .ok tail ∧
    generate_workingsets (⟨some p, some r, a, some n, extra⟩ :: rest) =
      generate_workingsets (⟨some p, some r, a, some 0, extra⟩ :: rest) := by
  have h0 : n.toNat = 0 := Int.toNat_of_nonpos hn.le
  constructor <;> simp [generate_workingsets, hrest, h0]

/-- Witness for C9: `sets = -2` emits nothing and agrees with `sets = 0`. -/
theorem C9_witness :
    generate_workingsets [⟨some 1, some 5, none, some (-2), []⟩] = .ok [] ∧
    generate_workingsets [⟨some 1, some 5, none, some (-2), []⟩] =
      generate_workingsets [⟨some 1, some 5, none, some 0, []⟩] :=
  C9_negative_sets 1 5 none [] [] [] (-2) (by norm_num) rfl

/-- Removal of the undocumented keys of a raw set entry. -/
def RawSet.stripExtra (s : RawSet) : RawSet :=
  ⟨s.percent, s.reps, s.amrap, s.sets, []⟩

/-- Removal of the undocumented keys of a raw session, recursively. -/
def RawSession.stripExtra (s : RawSession) : RawSession :=
  ⟨s.name, s.sets.map (List.map RawSet.stripExtra), []⟩

/-- Removal of the undocumented keys of a raw microcycle, recursively. -/
def RawMicro.stripExtra (m : RawMicro) : RawMicro :=
  ⟨m.name, m.sessions.map (List.map RawSession.stripExtra), []⟩

/-- Removal of the undocumented keys of a raw mesocycle, recursively. -/
def RawMeso.stripExtra (m : RawMeso) : RawMeso :=
  ⟨m.name, m.micros.map (List.map RawMicro.stripExtra), m.tm_inc, []⟩

/-- Working-set generation is unaffected by undocumented keys. -/
theorem generate_workingsets_stripExtra (l : List RawSet) :
    generate_workingsets (l.map RawSet.stripExtra) = generate_workingsets l := by
  induction l with
  | nil => rfl
  | cons s rest ih =>
    cases hp : s.percent with
    | none => simp [generate_workingsets, RawSet.stripExtra, hp]
    | some p =>
      cases hr : s.reps with
      | none => simp [generate_workingsets, RawSet.stripExtra, hp, hr]
      | some r => simp [generate_workingsets, RawSet.stripExtra, hp, hr, ih]

/-- Session generation is unaffected by undocumented keys. -/
theorem generate_sessions_stripExtra (l : List RawSession) :
    generate_sessions (l.map RawSession.stripExtra) = generate_sessions l := by
  induction l with
  | nil => rfl
  | cons s rest ih =>
    cases hs : s.sets with
    | none => simp [generate_sessions, RawSession.stripExtra, hs]
    | some raw =>
      cases hn : s.name with
      | none =>
        simp [generate_sessions, RawSession.stripExtra, hs, hn,
          generate_workingsets_stripExtra]
      | some nm =>
        simp [generate_sessions, RawSession.stripExtra, hs, hn,
          generate_workingsets_stripExtra, ih]

/-- Microcycle generation is unaffected by undocumented keys. -/
theorem generate_micros_stripExtra (l : List RawMicro) :
    generate_micros (l.map RawMicro.stripExtra) = generate_micros l := by
  induction l with
  | nil => rfl
  | cons m rest ih =>
    cases hs : m.sessions with
    | none => simp [generate_micros, RawMicro.stripExtra, hs]
    | some raw =>
      cases hn : m.name with
      | none =>
        simp [generate_micros, RawMicro.stripExtra, hs, hn,
          generate_sessions_stripExtra]
      | some nm =>
        simp [generate_micros, RawMicro.stripExtra, hs, hn,
          generate_sessions_stripExtra, ih]

/-- Mesocycle generation is unaffected by undocumented keys. -/
theorem generate_mesos_stripExtra (l : List RawMeso) :
    generate_mesos (l.map RawMeso.stripExtra) = generate_mesos l := by
  induction l with
  | nil => rfl
  | cons m rest ih =>
    cases hs : m.micros with
    | none => simp [generate_mesos, RawMeso.stripExtra, hs]
    | some raw =>
      cases hn : m.name with
      | none =>
        simp [generate_mesos, RawMeso.stripExtra, hs, hn,
          generate_micros_stripExtra]
      | some nm =>
        simp [generate_mesos, RawMeso.stripExtra, hs, hn,
          generate_micros_stripExtra, ih]

/-- Claim C10: two raw descriptions that are identical except for extra
(undocumented) keys inside meso, micro, session, or raw-set mappings
generate equal sequences of `MesoCycle` values. -/
theorem C10_extra_keys_ignored (ms1 ms2 : List RawMeso)
    (h : ms1.map RawMeso.stripExtra = ms2.map RawMeso.stripExtra) :
    generate_mesos ms1 = generate_mesos ms2 := by
  rw [← generate_mesos_stripExtra ms1, ← generate_mesos_stripExtra ms2, h]

/-- Witness for C10: a description with extra keys at the meso, session
and set levels generates the same mesocycles as its stripped twin. -/
theorem C10_witness :
    ([⟨some "m", some [⟨some "u", some [⟨some "d", some [⟨some 1, some 5, none, none,
        [("tempo", "slow")]⟩], [("note", "x")]⟩], []⟩], none, [("color", "red")]⟩] :
        List RawMeso).map RawMeso.stripExtra =
      ([⟨some "m", some [⟨some "u", some [⟨some "d", some [⟨some 1, some 5, none, none,
        []⟩], []⟩], []⟩], none, []⟩] : List RawMeso).map RawMeso.stripExtra ∧
    generate_mesos [⟨some "m", some [⟨some "u", some [⟨some "d", some [⟨some 1, some 5, none, none,
        [("tempo", "slow")]⟩], [("note", "x")]⟩], []⟩], none, [("color", "red")]⟩] =
      generate_mesos [⟨some "m", some [⟨some "u", some [⟨some "d", some [⟨some 1, some 5, none, none,
        []⟩], []⟩], []⟩], none, []⟩] :=
  ⟨rfl, C10_extra_keys_ignored _ _ rfl⟩

/-- Predicate: required field `f` of a raw set entry is absent. -/
def RawSet.missingField (f : String) (s : RawSet) : Prop :=
  (f = "percent" ∧ s.percent = none) ∨ (f = "reps" ∧ s.reps = none)

/-- Predicate: required field `f` is absent somewhere in a raw session. -/
def RawSession.missingField (f : String) (s : RawSession) : Prop :=
  (f = "name" ∧ s.name = none) ∨ (f = "sets" ∧ s.sets = none) ∨
    ∃ x ∈ s.sets.getD [], x.missingField f

/-- Predicate: required field `f` is absent somewhere in a raw microcycle. -/
def RawMicro.missingField (f : String) (m : RawMicro) : Prop :=
  (f = "name" ∧ m.name = none) ∨ (f = "sessions" ∧ m.sessions = none) ∨
    ∃ x ∈ m.sessions.getD [], x.missingField f

/-- Predicate: required field `f` is absent somewhere in a raw mesocycle. -/
def RawMeso.missingField (f : String) (m : RawMeso) : Prop :=
  (f = "name" ∧ m.name = none) ∨ (f = "micros" ∧ m.micros = none) ∨
    ∃ x ∈ m.micros.getD [], x.missingField f

/-- Predicate: required field `f` is absent somewhere in a raw program. -/
def RawProgram.missingField (f : String) (p : RawProgram) : Prop :=
  (f = "name" ∧ p.name = none) ∨ (f = "mesos" ∧ p.mesos = none) ∨
    ∃ x ∈ p.mesos.getD [], x.missingField f

/-- With no missing required field, working-set generation succeeds. -/
theorem generate_workingsets_ok_of_complete (l : List RawSet)
    (h : ¬ ∃ f, ∃ x ∈ l, RawSet.missingField f x) :
    ∃ v, generate_workingsets l = .ok v := by
  induction l with
  | nil => exact ⟨[], rfl⟩
  | cons s rest ih =>
    cases hp : s.percent with
    | none =>
      exact absurd ⟨"percent", s, List.mem_cons_self s rest, Or.inl ⟨rfl, hp⟩⟩ h
    | some p =>
      cases hr : s.reps with
      | none =>
        exact absurd ⟨"reps", s, List.mem_cons_self s rest, Or.inr ⟨rfl, hr⟩⟩ h
      | some r =>
        obtain ⟨v, hv⟩ := ih fun ⟨f, x, hx, hxf⟩ =>
          h ⟨f, x, List.mem_cons_of_mem s hx, hxf⟩
        exact ⟨List.replicate (s.sets.getD 1).toNat ⟨p, r, s.amrap.getD false⟩ ++ v,
          by simp [generate_workingsets, hp, hr, hv]⟩

/-- With a missing required field, working-set generation fails with the
`KeyError` of a field that is indeed missing. -/
theorem generate_workingsets_error_of_missing (l : List RawSet)
    (h : ∃ f, ∃ x ∈ l, RawSet.missingField f x) :
    ∃ g, (∃ x ∈ l, RawSet.missingField g x) ∧
      generate_workingsets l = .error (.keyError g) := by
  induction l with
  | nil => simp at h
  | cons s rest ih =>
    cases hp : s.percent with
    | none =>
      refine ⟨"percent", ⟨s, List.mem_cons_self s rest, Or.inl ⟨rfl, hp⟩⟩, ?_⟩
      simp [generate_workingsets, hp]
    | some p =>
      cases hr : s.reps with
      | none =>
        refine ⟨"reps", ⟨s, List.mem_cons_self s rest, Or.inr ⟨rfl, hr⟩⟩, ?_⟩
        simp [generate_workingsets, hp, hr]
      | some r =>
        have hsno : ∀ f, ¬ RawSet.missingField f s := by
          intro f
          simp [RawSet.missingField, hp, hr]
        obtain ⟨f, x, hx, hxf⟩ := h
        rcases List.mem_cons.mp hx with rfl | hxrest
        · exact absurd hxf (hsno f)
        · obtain ⟨g, ⟨y, hy, hyg⟩, herr⟩ := ih ⟨f, x, hxrest, hxf⟩
          refine ⟨g, ⟨y, List.mem_cons_of_mem s hy, hyg⟩, ?_⟩
          simp [generate_workingsets, hp, hr, herr]

/-- With no missing required field, session generation succeeds. -/
theorem generate_sessions_ok_of_complete (l : List RawSession)
    (h : ¬ ∃ f, ∃ x ∈ l, RawSession.missingField f x) :
    ∃ v, generate_sessions l = .ok v := by
  induction l with
  | nil => exact ⟨[], rfl⟩
  | cons s rest ih =>
    cases hs : s.sets with
    | none =>
      exact absurd ⟨"sets", s, List.mem_cons_self s rest, Or.inr (Or.inl ⟨rfl, hs⟩)⟩ h
    | some raw =>
      have hraw : ¬ ∃ f, ∃ x ∈ raw, RawSet.missingField f x := by
        rintro ⟨f, x, hx, hxf⟩
        exact h ⟨f, s, List.mem_cons_self s rest,
          Or.inr (Or.inr ⟨x, by simpa [hs] using hx, hxf⟩)⟩
      obtain ⟨ws, hws⟩ := generate_workingsets_ok_of_complete raw hraw
      cases hn : s.name with
      | none =>
        exact absurd ⟨"name", s, List.mem_cons_self s rest, Or.inl ⟨rfl, hn⟩⟩ h
      | some nm =>
        obtain ⟨v, hv⟩ := ih fun ⟨f, x, hx, hxf⟩ =>
          h ⟨f, x, List.mem_cons_of_mem s hx, hxf⟩
        exact ⟨⟨nm, ws⟩ :: v, by simp [generate_sessions, hs, hws, hn, hv]⟩

/-- With a missing required field, session generation fails with the
`KeyError` of a field that is indeed missing. -/
theorem generate_sessions_error_of_missing (l : List RawSession)
    (h : ∃ f, ∃ x ∈ l, RawSession.missingField f x) :
    ∃ g, (∃ x ∈ l, RawSession.missingField g x) ∧
      generate_sessions l = .error (.keyError g) := by
  induction l with
  | nil => simp at h
  | cons s rest ih =>
    cases hs : s.sets with
    | none =>
      refine ⟨"sets", ⟨s, List.mem_cons_self s rest, Or.inr (Or.inl ⟨rfl, hs⟩)⟩, ?_⟩
      simp [generate_sessions, hs]
    | some raw =>
      by_cases hraw : ∃ f, ∃ x ∈ raw, RawSet.missingField f x
      · obtain ⟨g, ⟨y, hy, hyg⟩, herr⟩ := generate_workingsets_error_of_missing raw hraw
        refine ⟨g, ⟨s, List.mem_cons_self s rest,
          Or.inr (Or.inr ⟨y, by simpa [hs] using hy, hyg⟩)⟩, ?_⟩
        simp [generate_sessions, hs, herr]
      · obtain ⟨ws, hws⟩ := generate_workingsets_ok_of_complete raw hraw
        cases hn : s.name with
        | none =>
          refine ⟨"name", ⟨s, List.mem_cons_self s rest, Or.inl ⟨rfl, hn⟩⟩, ?_⟩
          simp [generate_sessions, hs, hws, hn]
        | some nm =>
          have hsno : ∀ f, ¬ RawSession.missingField f s := by
            intro f hf
            simp only [RawSession.missingField] at hf
            rcases hf with ⟨_, h1⟩ | ⟨_, h1⟩ | ⟨x, hx, hxf⟩
            · rw [hn] at h1; exact Option.noConfusion h1
            · rw [hs] at h1; exact Option.noConfusion h1
            · rw [hs] at hx; exact hraw ⟨f, x, by simpa using hx, hxf⟩
          obtain ⟨f, x, hx, hxf⟩ := h
          rcases List.mem_cons.mp hx with rfl | hxrest
          · exact absurd hxf (hsno f)
          · obtain ⟨g, ⟨y, hy, hyg⟩, herr⟩ := ih ⟨f, x, hxrest, hxf⟩
            refine ⟨g, ⟨y, List.mem_cons_of_mem s hy, hyg⟩, ?_⟩
            simp [generate_sessions, hs, hws, hn, herr]

/-- With no missing required field, microcycle generation succeeds. -/
theorem generate_micros_ok_of_complete (l : List RawMicro)
    (h : ¬ ∃ f, ∃ x ∈ l, RawMicro.missingField f x) :
    ∃ v, generate_micros l = .ok v := by
  induction l with
  | nil => exact ⟨[], rfl⟩
  | cons m rest ih =>
    cases hs : m.sessions with
    | none =>
      exact absurd ⟨"sessions", m, List.mem_cons_self m rest, Or.inr (Or.inl ⟨rfl, hs⟩)⟩ h
    | some raw =>
      have hraw : ¬ ∃ f, ∃ x ∈ raw, RawSession.missingField f x := by
        rintro ⟨f, x, hx, hxf⟩
        exact h ⟨f, m, List.mem_cons_self m rest,
          Or.inr (Or.inr ⟨x, by simpa [hs] using hx, hxf⟩)⟩
      obtain ⟨ss, hss⟩ := generate_sessions_ok_of_complete raw hraw
      cases hn : m.name with
      | none =>
        exact absurd ⟨"name", m, List.mem_cons_self m rest, Or.inl ⟨rfl, hn⟩⟩ h
      | some nm =>
        obtain ⟨v, hv⟩ := ih fun ⟨f, x, hx, hxf⟩ =>
          h ⟨f, x, List.mem_cons_of_mem m hx, hxf⟩
        exact ⟨⟨nm, ss⟩ :: v, by simp [generate_micros, hs, hss, hn, hv]⟩

/-- With a missing required field, microcycle generation fails with the
`KeyError` of a field that is indeed missing. -/
theorem generate_micros_error_of_missing (l : List RawMicro)
    (h : ∃ f, ∃ x ∈ l, RawMicro.missingField f x) :
    ∃ g, (∃ x ∈ l, RawMicro.missingField g x) ∧
      generate_micros l = .error (.keyError g) := by
  induction l with
  | nil => simp at h
  | cons m rest ih =>
    cases hs : m.sessions with
    | none =>
      refine ⟨"sessions", ⟨m, List.mem_cons_self m rest, Or.inr (Or.inl ⟨rfl, hs⟩)⟩, ?_⟩
      simp [generate_micros, hs]
    | some raw =>
      by_cases hraw : ∃ f, ∃ x ∈ raw, RawSession.missingField f x
      · obtain ⟨g, ⟨y, hy, hyg⟩, herr⟩ := generate_sessions_error_of_missing raw hraw
        refine ⟨g, ⟨m, List.mem_cons_self m rest,
          Or.inr (Or.inr ⟨y, by simpa [hs] using hy, hyg⟩)⟩, ?_⟩
        simp [generate_micros, hs, herr]
      · obtain ⟨ss, hss⟩ := generate_sessions_ok_of_complete raw hraw
        cases hn : m.name with
        | none =>
          refine ⟨"name", ⟨m, List.mem_cons_self m rest, Or.inl ⟨rfl, hn⟩⟩, ?_⟩
          simp [generate_micros, hs, hss, hn]
        | some nm =>
          have hmno : ∀ f, ¬ RawMicro.missingField f m := by
            intro f hf
            simp only [RawMicro.missingField] at hf
            rcases hf with ⟨_, h1⟩ | ⟨_, h1⟩ | ⟨x, hx, hxf⟩
            · rw [hn] at h1; exact Option.noConfusion h1
            · rw [hs] at h1; exact Option.noConfusion h1
            · rw [hs] at hx; exact hraw ⟨f, x, by simpa using hx, hxf⟩
          obtain ⟨f, x, hx, hxf⟩ := h
          rcases List.mem_cons.mp hx with rfl | hxrest
          · exact absurd hxf (hmno f)
          · obtain ⟨g, ⟨y, hy, hyg⟩, herr⟩ := ih ⟨f, x, hxrest, hxf⟩
            refine ⟨g, ⟨y, List.mem_cons_of_mem m hy, hyg⟩, ?_⟩
            simp [generate_micros, hs, hss, hn, herr]

/-- With no missing required field, mesocycle generation succeeds. -/
theorem generate_mesos_ok_of_complete (l : List RawMeso)
    (h : ¬ ∃ f, ∃ x ∈ l, RawMeso.missingField f x) :
    ∃ v, generate_mesos l = .ok v := by
  induction l with
  | nil => exact ⟨[], rfl⟩
  | cons m rest ih =>
    cases hs : m.micros with
    | none =>
      exact absurd ⟨"micros", m, List.mem_cons_self m rest, Or.inr (Or.inl ⟨rfl, hs⟩)⟩ h
    | some raw =>
      have hraw : ¬ ∃ f, ∃ x ∈ raw, RawMicro.missingField f x := by
        rintro ⟨f, x, hx, hxf⟩
        exact h ⟨f, m, List.mem_cons_self m rest,
          Or.inr (Or.inr ⟨x, by simpa [hs] using hx, hxf⟩)⟩
      obtain ⟨us, hus⟩ := generate_micros_ok_of_complete raw hraw
      cases hn : m.name with
      | none =>
        exact absurd ⟨"name", m, List.mem_cons_self m rest, Or.inl ⟨rfl, hn⟩⟩ h
      | some nm =>
        obtain ⟨v, hv⟩ := ih fun ⟨f, x, hx, hxf⟩ =>
          h ⟨f, x, List.mem_cons_of_mem m hx, hxf⟩
        exact ⟨⟨nm, us, m.tm_inc.getD 0⟩ :: v, by simp [generate_mesos, hs, hus, hn, hv]⟩

/-- With a missing required field, mesocycle generation fails with the
`KeyError` of a field that is indeed missing. -/
theorem generate_mesos_error_of_missing (l : List RawMeso)
    (h : ∃ f, ∃ x ∈ l, RawMeso.missingField f x) :
    ∃ g, (∃ x ∈ l, RawMeso.missingField g x) ∧
      generate_mesos l = .error (.keyError g) := by
  induction l with
  | nil => simp at h
  | cons m rest ih =>
    cases hs : m.micros with
    | none =>
      refine ⟨"micros", ⟨m, List.mem_cons_self m rest, Or.inr (Or.inl ⟨rfl, hs⟩)⟩, ?_⟩
      simp [generate_mesos, hs]
    | some raw =>
      by_cases hraw : ∃ f, ∃ x ∈ raw, RawMicro.missingField f x
      · obtain ⟨g, ⟨y, hy, hyg⟩, herr⟩ := generate_micros_error_of_missing raw hraw
        refine ⟨g, ⟨m, List.mem_cons_self m rest,
          Or.inr (Or.inr ⟨y, by simpa [hs] using hy, hyg⟩)⟩, ?_⟩
        simp [generate_mesos, hs, herr]
      · obtain ⟨us, hus⟩ := generate_micros_ok_of_complete raw hraw
        cases hn : m.name with
        | none =>
          refine ⟨"name", ⟨m, List.mem_cons_self m rest, Or.inl ⟨rfl, hn⟩⟩, ?_⟩
          simp [generate_mesos, hs, hus, hn]
        | some nm =>
          have hmno : ∀ f, ¬ RawMeso.missingField f m := by
            intro f hf
            simp only [RawMeso.missingField] at hf
            rcases hf with ⟨_, h1⟩ | ⟨_, h1⟩ | ⟨x, hx, hxf⟩
            · rw [hn] at h1; exact Option.noConfusion h1
            · rw [hs] at h1; exact Option.noConfusion h1
            · rw [hs] at hx; exact hraw ⟨f, x, by simpa using hx, hxf⟩
          obtain ⟨f, x, hx, hxf⟩ := h
          rcases List.mem_cons.mp hx with rfl | hxrest
          · exact absurd hxf (hmno f)
          · obtain ⟨g, ⟨y, hy, hyg⟩, herr⟩ := ih ⟨f, x, hxrest, hxf⟩
            refine ⟨g, ⟨y, List.mem_cons_of_mem m hy, hyg⟩, ?_⟩
            simp [generate_mesos, hs, hus, hn, herr]

/-- Claim C4 (amended): when a required field is missing at any nesting
level, loading fails with the `KeyError` of a required field that is
indeed missing (the field name, with no nesting path), and no partial
`Program` value is returned to the caller. -/
theorem C4_missing_field_error (p : RawProgram)
    (h : ∃ f, RawProgram.missingField f p) :
    ∃ f, RawProgram.missingField f p ∧ load_program p = .error (.keyError f) ∧
      ∀ prog : Program, load_program p ≠ .ok prog := by
  have key : ∃ f, RawProgram.missingField f p ∧
      load_program p = .error (.keyError f) := by
    cases hm : p.mesos with
    | none =>
      exact ⟨"mesos", Or.inr (Or.inl ⟨rfl, hm⟩), by simp [load_program, hm]⟩
    | some raw =>
      by_cases hraw : ∃ f, ∃ x ∈ raw, RawMeso.missingField f x
      · obtain ⟨g, ⟨y, hy, hyg⟩, herr⟩ := generate_mesos_error_of_missing raw hraw
        exact ⟨g, Or.inr (Or.inr ⟨y, by simpa [hm] using hy, hyg⟩),
          by simp [load_program, hm, herr]⟩
      · obtain ⟨v, hv⟩ := generate_mesos_ok_of_complete raw hraw
        cases hn : p.name with
        | none =>
          exact ⟨"name", Or.inl ⟨rfl, hn⟩, by simp [load_program, hm, hv, hn]⟩
        | some nm =>
          exfalso
          obtain ⟨f, hf⟩ := h
          simp only [RawProgram.missingField] at hf
          rcases hf with ⟨_, h1⟩ | ⟨_, h1⟩ | ⟨x, hx, hxf⟩
          · rw [hn] at h1; exact Option.noConfusion h1
          · rw [hm] at h1; exact Option.noConfusion h1
          · rw [hm] at hx; exact hraw ⟨f, x, by simpa using hx, hxf⟩
  obtain ⟨f, hf, herr⟩ := key
  refine ⟨f, hf, herr, fun prog hok => ?_⟩
  rw [herr] at hok
  exact Except.noConfusion hok

/-- Witness for C4: a program whose only set entry lacks `percent`. -/
theorem C4_witness :
    ∃ f, RawProgram.missingField f
        ⟨some "P", some [⟨some "m", some [⟨some "u", some [⟨some "d",
          some [⟨none, some 5, none, none, []⟩], []⟩], []⟩], none, []⟩], []⟩ ∧
      load_program ⟨some "P", some [⟨some "m", some [⟨some "u", some [⟨some "d",
          some [⟨none, some 5, none, none, []⟩], []⟩], []⟩], none, []⟩], []⟩ =
        .error (.keyError f) ∧
      ∀ prog : Program,
        load_program ⟨some "P", some [⟨some "m", some [⟨some "u", some [⟨some "d",
          some [⟨none, some 5, none, none, []⟩], []⟩], []⟩], none, []⟩], []⟩ ≠
          .ok prog :=
  C4_missing_field_error _ ⟨"percent", by
    simp [RawProgram.missingField, RawMeso.missingField, RawMicro.missingField,
      RawSession.missingField, RawSet.missingField]⟩

/-- Claim C4, counterexample to the original statement: there is no
`MalformedProgramError` in the code and the raised `KeyError` does not
identify the nesting path — two descriptions whose missing `reps` sits at
different nesting paths (first session's set versus second session's set)
produce the very same error value. -/
theorem C4_counterexample :
    load_program ⟨some "P", some [⟨some "m", some [⟨some "u", some
        [⟨some "d1", some [⟨some 1, none, none, none, []⟩], []⟩],
        []⟩], none, []⟩], []⟩ = .error (.keyError "reps") ∧
    load_program ⟨some "P", some [⟨some "m", some [⟨some "u", some
        [⟨some "d1", some [⟨some 1, some 5, none, none, []⟩], []⟩,
         ⟨some "d2", some [⟨some 1, none, none, none, []⟩], []⟩],
        []⟩], none, []⟩], []⟩ = .error (.keyError "reps") ∧
    (⟨some "P", some [⟨some "m", some [⟨some "u", some
        [⟨some "d1", some [⟨some 1, none, none, none, []⟩], []⟩],
        []⟩], none, []⟩], []⟩ : RawProgram) ≠
      ⟨some "P", some [⟨some "m", some [⟨some "u", some
        [⟨some "d1", some [⟨some 1, some 5, none, none, []⟩], []⟩,
         ⟨some "d2", some [⟨some 1, none, none, none, []⟩], []⟩],
        []⟩], none, []⟩], []⟩ := by
  refine ⟨by decide, by decide, by decide⟩

/-- Repeat count of a raw set entry: its `sets` value, defaulting to 1. -/
def RawSet.repeatCount (s : RawSet) : ℤ := s.sets.getD 1

/-- Sum of the repeat counts of a raw session's set entries. -/
def RawSession.rawCount (s : RawSession) : ℤ :=
  ((s.sets.getD []).map RawSet.repeatCount).sum

/-- Sum of the repeat counts below a raw microcycle. -/
def RawMicro.rawCount (u : RawMicro) : ℤ :=
  ((u.sessions.getD []).map RawSession.rawCount).sum

/-- Sum of the repeat counts below a raw mesocycle. -/
def RawMeso.rawCount (m : RawMeso) : ℤ :=
  ((m.micros.getD []).map RawMicro.rawCount).sum

/-- Sum of the repeat counts of all raw set entries of a raw program. -/
def RawProgram.rawCount (p : RawProgram) : ℤ :=
  ((p.mesos.getD []).map RawMeso.rawCount).sum

/-- Total number of `WorkingSet` entries in a generated `Program`, summed
over all mesocycles, microcycles and sessions. -/
def Program.total_sets (p : Program) : ℕ :=
  (p.mesos.map fun m =>
    (m.micros.map fun u => (u.sessions.map fun s => s.sets.length).sum).sum).sum

/-- All repeat counts in a raw description are non-negative (the spec's
well-formedness invariant for repeat counts). -/
def RawProgram.countsNonneg (p : RawProgram) : Prop :=
  ∀ m ∈ p.mesos.getD [], ∀ u ∈ m.micros.getD [], ∀ s ∈ u.sessions.getD [],
    ∀ x ∈ s.sets.getD [], 0 ≤ x.repeatCount

/-- Generated working sets are as many as the sum of the repeat counts. -/
theorem generate_workingsets_length (l : List RawSet) (v : List WorkingSet)
    (hok : generate_workingsets l = .ok v)
    (hnn : ∀ x ∈ l, 0 ≤ x.repeatCount) :
    (v.length : ℤ) = (l.map RawSet.repeatCount).sum := by
  induction l generalizing v with
  | nil =>
    simp only [generate_workingsets, Except.ok.injEq] at hok
    subst hok
    simp
  | cons s rest ih =>
    cases hp : s.percent with
    | none => simp [generate_workingsets, hp] at hok
    | some p =>
      cases hr : s.reps with
      | none => simp [generate_workingsets, hp, hr] at hok
      | some r =>
        cases hrec : generate_workingsets rest with
        | error e => simp [generate_workingsets, hp, hr, hrec] at hok
        | ok tail =>
          simp only [generate_workingsets, hp, hr, hrec, Except.ok.injEq] at hok
          subst hok
          have h0 : ((s.sets.getD 1).toNat : ℤ) = s.sets.getD 1 :=
            Int.toNat_of_nonneg (hnn s (List.mem_cons_self s rest))
          have ht := ih tail hrec fun x hx => hnn x (List.mem_cons_of_mem s hx)
          simp only [List.length_append, List.length_replicate, List.map_cons,
            List.sum_cons, RawSet.repeatCount]
          push_cast
          rw [h0, ht]

/-- Working sets generated across sessions match the raw repeat counts. -/
theorem generate_sessions_count (l : List RawSession) (v : List Session)
    (hok : generate_sessions l = .ok v)
    (hnn : ∀ s ∈ l, ∀ x ∈ s.sets.getD ([] : List RawSet), 0 ≤ x.repeatCount) :
    (((v.map fun s => s.sets.length).sum : ℕ) : ℤ) = (l.map RawSession.rawCount).sum := by
  induction l generalizing v with
  | nil =>
    simp only [generate_sessions, Except.ok.injEq] at hok
    subst hok
    simp
  | cons s rest ih =>
    cases hs : s.sets with
    | none => simp [generate_sessions, hs] at hok
    | some raw =>
      cases hws : generate_workingsets raw with
      | error e => simp [generate_sessions, hs, hws] at hok
      | ok ws =>
        cases hn : s.name with
        | none => simp [generate_sessions, hs, hws, hn] at hok
        | some nm =>
          cases hrec : generate_sessions rest with
          | error e => simp [generate_sessions, hs, hws, hn, hrec] at hok
          | ok tail =>
            simp only [generate_sessions, hs, hws, hn, hrec, Except.ok.injEq] at hok
            subst hok
            have h1 := generate_workingsets_length raw ws hws fun x hx =>
              hnn s (List.mem_cons_self s rest) x
                (by simp only [hs, Option.getD_some]; exact hx)
            have h2 := ih tail hrec fun s' hs' => hnn s' (List.mem_cons_of_mem s hs')
            simp only [List.map_cons, List.sum_cons, RawSession.rawCount, hs,
              Option.getD_some]
            push_cast
            push_cast at h2
            rw [h1, h2]

/-- Working sets generated across microcycles match the raw repeat counts. -/
theorem generate_micros_count (l : List RawMicro) (v : List MicroCycle)
    (hok : generate_micros l = .ok v)
    (hnn : ∀ u ∈ l, ∀ s ∈ u.sessions.getD ([] : List RawSession),
      ∀ x ∈ s.sets.getD ([] : List RawSet), 0 ≤ x.repeatCount) :
    (((v.map fun u => (u.sessions.map fun s => s.sets.length).sum).sum : ℕ) : ℤ) =
      (l.map RawMicro.rawCount).sum := by
  induction l generalizing v with
  | nil =>
    simp only [generate_micros, Except.ok.injEq] at hok
    subst hok
    simp
  | cons u rest ih =>
    cases hs : u.sessions with
    | none => simp [generate_micros, hs] at hok
    | some raw =>
      cases hss : generate_sessions raw with
      | error e => simp [generate_micros, hs, hss] at hok
      | ok ss =>
        cases hn : u.name with
        | none => simp [generate_micros, hs, hss, hn] at hok
        | some nm =>
          cases hrec : generate_micros rest with
          | error e => simp [generate_micros, hs, hss, hn, hrec] at hok
          | ok tail =>
            simp only [generate_micros, hs, hss, hn, hrec, Except.ok.injEq] at hok
            subst hok
            have h1 := generate_sessions_count raw ss hss fun s' hs' =>
              hnn u (List.mem_cons_self u rest) s'
                (by simp only [hs, Option.getD_some]; exact hs')
            have h2 := ih tail hrec fun u' hu' => hnn u' (List.mem_cons_of_mem u hu')
            simp only [List.map_cons, List.sum_cons, RawMicro.rawCount, hs,
              Option.getD_some]
            push_cast
            push_cast at h1 h2
            rw [h1, h2]

/-- Working sets generated across mesocycles match the raw repeat counts. -/
theorem generate_mesos_count (l : List RawMeso) (v : List MesoCycle)
    (hok : generate_mesos l = .ok v)
    (hnn : ∀ m ∈ l, ∀ u ∈ m.micros.getD ([] : List RawMicro),
      ∀ s ∈ u.sessions.getD ([] : List RawSession),
      ∀ x ∈ s.sets.getD ([] : List RawSet), 0 ≤ x.repeatCount) :
    (((v.map fun m =>
        (m.micros.map fun u => (u.sessions.map fun s => s.sets.length).sum).sum).sum : ℕ) : ℤ) =
      (l.map RawMeso.rawCount).sum := by
  induction l generalizing v with
  | nil =>
    simp only [generate_mesos, Except.ok.injEq] at hok
    subst hok
    simp
  | cons m rest ih =>
    cases hs : m.micros with
    | none => simp [generate_mesos, hs] at hok
    | some raw =>
      cases hus : generate_micros raw with
      | error e => simp [generate_mesos, hs, hus] at hok
      | ok us =>
        cases hn : m.name with
        | none => simp [generate_mesos, hs, hus, hn] at hok
        | some nm =>
          cases hrec : generate_mesos rest with
          | error e => simp [generate_mesos, hs, hus, hn, hrec] at hok
          | ok tail =>
            simp only [generate_mesos, hs, hus, hn, hrec, Except.ok.injEq] at hok
            subst hok
            have h1 := generate_micros_count raw us hus fun u' hu' =>
              hnn m (List.mem_cons_self m rest) u'
                (by simp only [hs, Option.getD_some]; exact hu')
            have h2 := ih tail hrec fun m' hm' => hnn m' (List.mem_cons_of_mem m hm')
            simp only [List.map_cons, List.sum_cons, RawMeso.rawCount, hs,
              Option.getD_some]
            push_cast
            push_cast at h1 h2
            rw [h1, h2]

/-- Claim C6: for a well-formed raw description (generation succeeds and
repeat counts are non-negative), the total number of `WorkingSet` entries
in the generated `Program` equals the sum over all raw set entries of
their repeat counts, an absent `sets` key counting as 1. -/
theorem C6_total_count (d : RawProgram) (prog : Program)
    (hok : load_program d = .ok prog) (hnn : d.countsNonneg) :
    (prog.total_sets : ℤ) = d.rawCount := by
  cases hm : d.mesos with
  | none => simp [load_program, hm] at hok
  | some raw =>
    cases hg : generate_mesos raw with
    | error e => simp [load_program, hm, hg] at hok
    | ok mesos =>
      cases hn : d.name with
      | none => simp [load_program, hm, hg, hn] at hok
      | some nm =>
        simp only [load_program, hm, hg, hn, Except.ok.injEq] at hok
        subst hok
        have hnn' : ∀ m ∈ raw, ∀ u ∈ m.micros.getD ([] : List RawMicro),
            ∀ s ∈ u.sessions.getD ([] : List RawSession),
            ∀ x ∈ s.sets.getD ([] : List RawSet), 0 ≤ x.repeatCount := by
          intro m hm' u hu s hs x hx
          exact hnn m (by simp only [hm, Option.getD_some]; exact hm') u hu s hs x hx
        have h := generate_mesos_count raw mesos hg hnn'
        simp only [Program.total_sets, RawProgram.rawCount, hm, Option.getD_some]
        exact h

/-- Witness for C6: one session with a single entry of repeat count 2. -/
theorem C6_witness :
    ((Program.total_sets ⟨"P", [⟨"m1", [⟨"u1", [⟨"day1",
        [⟨1, 10, false⟩, ⟨1, 10, false⟩]⟩]⟩], 0⟩]⟩ : ℕ) : ℤ) =
      RawProgram.rawCount ⟨some "P", some [⟨some "m1", some [⟨some "u1", some
        [⟨some "day1", some [⟨some 1, some 10, none, some 2, []⟩], []⟩], []⟩],
        none, []⟩], []⟩ :=
  C6_total_count _ _ (by decide)
    (by
      unfold RawProgram.countsNonneg
      decide)

end Swole
